import Mathlib

/-!
Shallow embedding of the TinyRuleChecker rule engine
(src/tinyrulechecker.h, src/tinyrulechecker.cc).

Modelling conventions:
* C strings and `std::string` values are `List Char`; every character in the
  claims is ASCII, and `Char.toNat` is the byte value the C code reads.
* `int32_t` is `Int` (no claim exercises overflow). `float` is `CFloat`:
  an exact rational or the IEEE NaN — `setVarFloat` accepts any host float,
  including NaN, and every IEEE comparison involving NaN is false, which
  the comparison helpers mirror. Infinities are not modelled: they compare
  totally (exactly one of `<`, `==`, `>` holds whenever both operands are
  non-NaN), so no claim's truth depends on them; the tokenizer of the model
  produces exact finite values.
* On the trailing-token error path `eval` returns an `EvalResult` whose
  `result` field the C++ never assigned; `evalTRCu` carries that
  indeterminate boolean as an explicit `junk` parameter, and `evalTRC` is
  its determinization at `false`, used by the claims whose content does not
  depend on that field.
* Fallible C functions that return `bool` and fill an out-parameter return
  the pair explicitly; `const char *` cursors that may be `NULL` are
  `Option (List Char)`.
* Fields the C code leaves uninitialized but never reads on any evaluated
  path (for example `Token.intval` of a parenthesis token, or the numeric
  fields of a string `VarValue`) are fixed at `0` / `[]`; `std::string`
  members are genuinely value-initialized to `""` by C++, which is `[]`.
* Recursive parser functions take an explicit fuel argument; fuel
  exhaustion yields the artificial error `"fuel exhausted"`, which is never
  reached when the fuel exceeds the input length (the top-level entry point
  passes `length + 2`).
-/

/-- Convert a Lean string literal to the byte-list representation used by the
embedding. -/
def chars (s : String) : List Char := s.data

/-- VarType from tinyrulechecker.h. `V_TYPE_ARRAY` is declared in the revised
header that accompanies the `.cc` (the header in the tree predates it); its
tag character is not observable in any claim and is modelled as `'a'`. -/
inductive VarType : Type where
  | vInt
  | vFloat
  | vString
  | vArray
  deriving DecidableEq, Repr

/-- Single-character type tag used in error messages (the enum constant's
character value: `'i'`, `'f'`, `'s'`). -/
def tagChar : VarType → Char
  | .vInt => 'i'
  | .vFloat => 'f'
  | .vString => 's'
  | .vArray => 'a'

/-- Model of the C `float` payload: an exact rational or the IEEE NaN.
`setVarFloat` can store NaN (the host passes an arbitrary float, and a
pathological literal can even overflow the tokenizer's accumulation loop to
inf/inf); every IEEE comparison involving NaN is false. Infinities are not
modelled — they compare totally, so they add no behaviour any claim depends
on; finite values are kept exact. -/
inductive CFloat : Type where
  | finite (q : ℚ)
  | nan
  deriving DecidableEq, Repr

/-- IEEE `==` on the modelled floats: false whenever an operand is NaN. -/
def cfEq : CFloat → CFloat → Bool
  | .finite a, .finite b => decide (a = b)
  | _, _ => false

/-- IEEE `<` on the modelled floats: false whenever an operand is NaN. -/
def cfLt : CFloat → CFloat → Bool
  | .finite a, .finite b => decide (a < b)
  | _, _ => false

/-- IEEE `<=` on the modelled floats: false whenever an operand is NaN. -/
def cfLe : CFloat → CFloat → Bool
  | .finite a, .finite b => decide (a ≤ b)
  | _, _ => false

/-- VarValue from tinyrulechecker.h: a struct carrying a type tag and one
field per representable type (plus the array field of the revised header). -/
inductive VarValue : Type where
  | mk (type : VarType) (intval : Int) (floatval : CFloat) (strval : List Char)
      (array : List VarValue)

def VarValue.type : VarValue → VarType
  | .mk t _ _ _ _ => t

def VarValue.intval : VarValue → Int
  | .mk _ i _ _ _ => i

def VarValue.floatval : VarValue → CFloat
  | .mk _ _ f _ _ => f

def VarValue.strval : VarValue → List Char
  | .mk _ _ _ s _ => s

def VarValue.array : VarValue → List VarValue
  | .mk _ _ _ _ a => a

/-- Value produced when `_parseValue` fails (the C out-parameter is left
partially written and never read by any caller on the failure path). -/
def defaultVV : VarValue := .mk .vInt 0 (.finite 0) [] []

/-- EvalResult from tinyrulechecker.h. -/
structure EvalResult : Type where
  result : Bool
  error : List Char
  deriving DecidableEq, Repr

/-- TokenType from tinyrulechecker.h (together with the `TK_LBRACE`,
`TK_RBRACE`, `TK_COMMA` constants of the revised header, whose character
values `'['`, `']'`, `','` are fixed by the generated lookup tables in
tinyrulechecker.cc). -/
inductive TokenType : Type where
  | tkUnknown
  | tkId
  | tkInt
  | tkFloat
  | tkRawString
  | tkRawStringNoEsc
  | tkUnterminated
  | tkAnd
  | tkOr
  | tkNot
  | tkDot
  | tkLpar
  | tkRpar
  | tkLbrace
  | tkRbrace
  | tkComma
  | tkSpace
  | tkEof
  deriving DecidableEq, Repr

/-- Character value of each TokenType enum constant (used by
`_stringifyToken`'s default branch). -/
def tokTypeChar : TokenType → Char
  | .tkUnknown => 'u'
  | .tkId => 'i'
  | .tkInt => 'n'
  | .tkFloat => 'f'
  | .tkRawString => 's'
  | .tkRawStringNoEsc => 'S'
  | .tkUnterminated => 't'
  | .tkAnd => '&'
  | .tkOr => '|'
  | .tkNot => '!'
  | .tkDot => '.'
  | .tkLpar => '('
  | .tkRpar => ')'
  | .tkLbrace => '['
  | .tkRbrace => ']'
  | .tkComma => ','
  | .tkSpace => ' '
  | .tkEof => 'e'

/-- Token from tinyrulechecker.h. Numeric fields that a given token kind does
not write are modelled as `0` (the C code leaves the previous token's bytes
there and never reads them). -/
structure Token : Type where
  type : TokenType
  value : List Char
  intval : Int
  floatval : CFloat
  deriving DecidableEq, Repr

/-- Token returned at end of input (`t.type = TK_EOF; t.value = {}`). -/
def eofToken : Token := { type := .tkEof, value := [], intval := 0, floatval := .finite 0 }

/-- The zero-initialized token of a fresh `ParseState` (never read before the
first `_nextToken`/`_peekToken` write). -/
def initToken : Token := { type := .tkUnknown, value := [], intval := 0, floatval := .finite 0 }

/-- _TOKEN_LOOKUP_TABLE of tinyrulechecker.cc: class of the first byte of a
token. The table is generated from the `isspace`/`isalpha`/`isdigit` tests in
`__generateLookupTable`; bytes ≥ 128 (and codepoints beyond a byte, which a
C string cannot contain) are `TK_UNKNOWN`. -/
def classify (c : Char) : TokenType :=
  let n := c.toNat
  if n = 0 then .tkEof
  else if n = 9 ∨ n = 10 ∨ n = 11 ∨ n = 12 ∨ n = 13 ∨ n = 32 then .tkSpace
  else if (65 ≤ n ∧ n ≤ 90) ∨ (97 ≤ n ∧ n ≤ 122) ∨ n = 95 then .tkId
  else if n = 34 ∨ n = 39 then .tkRawString
  else if (48 ≤ n ∧ n ≤ 57) ∨ n = 45 ∨ n = 43 then .tkInt
  else if n = 40 then .tkLpar
  else if n = 41 then .tkRpar
  else if n = 91 then .tkLbrace
  else if n = 93 then .tkRbrace
  else if n = 38 then .tkAnd
  else if n = 124 then .tkOr
  else if n = 33 then .tkNot
  else if n = 46 then .tkDot
  else if n = 44 then .tkComma
  else .tkUnknown

/-- _TOKEN_LOOKUP_ID of tinyrulechecker.cc, restricted to the only test the
code performs on it (`== TK_ID`): alphanumeric or underscore continues an
identifier. -/
def isIdCont (c : Char) : Bool :=
  decide ((48 ≤ c.toNat ∧ c.toNat ≤ 57) ∨ (65 ≤ c.toNat ∧ c.toNat ≤ 90) ∨
    (97 ≤ c.toNat ∧ c.toNat ≤ 122) ∨ c.toNat = 95)

/-- Digit test `*expr >= '0' && *expr <= '9'` from `_nextToken`. -/
def isDigitC (c : Char) : Bool :=
  decide (48 ≤ c.toNat ∧ c.toNat ≤ 57)

/-- Space test used by the whitespace-skipping loop of `_nextToken`. -/
def isSpaceC (c : Char) : Bool :=
  decide (classify c = TokenType.tkSpace)

/-- Result of the string-literal scanning loop inside `_nextToken`
(`TK_RAW_STRING` case): the content slice, the cursor after it, whether the
closing quote was found, and whether a backslash occurred. -/
structure ScanRes : Type where
  content : List Char
  rest : List Char
  closed : Bool
  escaped : Bool

/-- String-literal scan of `_nextToken`: consume until the quote character or
end of input; a backslash unconditionally consumes the following character as
well. (When the input ends directly after a backslash the C code walks past
the terminator, which is undefined behaviour; the model treats it as an
unterminated literal.) -/
def scanStr (q : Char) : List Char → ScanRes
  | [] => ⟨[], [], false, false⟩
  | ch :: rest =>
    if ch = q then ⟨[], rest, true, false⟩
    else if ch = '\\' then
      match rest with
      | [] => ⟨[ch], [], false, true⟩
      | d :: rest₂ =>
        let r := scanStr q rest₂
        ⟨ch :: d :: r.content, r.rest, r.closed, true⟩
    else
      let r := scanStr q rest
      ⟨ch :: r.content, r.rest, r.closed, r.escaped⟩

/-- Numeric-literal branch (`TK_INT` case) of `_nextToken`: optional sign,
decimal digits, then an optional `'.'` continuing as a float literal. Note
the sign is applied to the integer part before the fraction is added. -/
def intTok (ch : Char) (rest : List Char) : Token × Option (List Char) :=
  let neg := ch = '-'
  let i0 : Int := if isDigitC ch then (ch.toNat : Int) - 48 else 0
  let ds := rest.takeWhile isDigitC
  let r₁ := rest.dropWhile isDigitC
  let iv := ds.foldl (fun a d => a * 10 + ((d.toNat : Int) - 48)) i0
  let iv' := if neg then -iv else iv
  if r₁.head? = some '.' then
    let r₂ := r₁.tail
    let fs := r₂.takeWhile isDigitC
    let r₃ := r₂.dropWhile isDigitC
    let fd := fs.foldl (fun (p : ℚ × ℚ) d => (p.1 * 10 + ((d.toNat : ℚ) - 48), p.2 * 10)) (0, 1)
    ({ type := .tkFloat, value := ch :: ds ++ '.' :: fs, intval := iv',
       floatval := .finite ((iv' : ℚ) + fd.1 / fd.2) }, some r₃)
  else ({ type := .tkInt, value := ch :: ds, intval := iv', floatval := .finite 0 }, some r₁)

/-- Token whose value is its single lead character. -/
def oneCharTok (t : TokenType) (ch : Char) : Token :=
  { type := t, value := [ch], intval := 0, floatval := .finite 0 }

/-- TinyRuleChecker::_nextToken. Returns the token and the cursor after it
(`none` models the `NULL` return at end of input). -/
def nextToken (s : List Char) : Token × Option (List Char) :=
  match s.dropWhile isSpaceC with
  | [] => (eofToken, none)
  | ch :: rest =>
    match classify ch with
    | .tkId =>
      ({ type := .tkId, value := ch :: rest.takeWhile isIdCont, intval := 0, floatval := .finite 0 },
       some (rest.dropWhile isIdCont))
    | .tkRawString =>
      let r := scanStr ch rest
      if r.closed then
        ({ type := if r.escaped then .tkRawString else .tkRawStringNoEsc,
           value := r.content, intval := 0, floatval := .finite 0 }, some r.rest)
      else
        ({ type := .tkUnterminated, value := r.content, intval := 0, floatval := .finite 0 },
         some r.rest)
    | .tkInt => intTok ch rest
    | .tkAnd =>
      match rest with
      | '&' :: r₂ => ({ type := .tkAnd, value := ['&', '&'], intval := 0, floatval := .finite 0 }, some r₂)
      | _ => ({ type := .tkUnknown, value := ['&'], intval := 0, floatval := .finite 0 }, some (ch :: rest))
    | .tkOr =>
      match rest with
      | '|' :: r₂ => ({ type := .tkOr, value := ['|', '|'], intval := 0, floatval := .finite 0 }, some r₂)
      | _ => ({ type := .tkUnknown, value := ['|'], intval := 0, floatval := .finite 0 }, some (ch :: rest))
    | .tkLpar => (oneCharTok .tkLpar ch, some rest)
    | .tkRpar => (oneCharTok .tkRpar ch, some rest)
    | .tkLbrace => (oneCharTok .tkLbrace ch, some rest)
    | .tkRbrace => (oneCharTok .tkRbrace ch, some rest)
    | .tkNot => (oneCharTok .tkNot ch, some rest)
    | .tkDot => (oneCharTok .tkDot ch, some rest)
    | .tkComma => (oneCharTok .tkComma ch, some rest)
    | .tkEof => (eofToken, none)
    | _ => (oneCharTok .tkUnknown ch, some rest)

/-- Lift of `_nextToken` to a possibly-`NULL` cursor (the C code passes
`ps.next`, which can already be `NULL`; `_nextToken(NULL, t)` yields the EOF
token and `NULL`). -/
def nextTokenO : Option (List Char) → Token × Option (List Char)
  | none => (eofToken, none)
  | some s => nextToken s

/-- TinyRuleChecker::_peekToken: classify without advancing; the boolean is
`_nextToken(...) != NULL`. -/
def peekOk (s : Option (List Char)) : Bool :=
  decide ((nextTokenO s).2 ≠ none)

/-- Slot count of the FastStringLookup direct table (`_lookup.resize(1021, 0)`). -/
def lookSize : Nat := 1021

/-- FastStringLookup::_fnvHash32v : FNV-style hash over the key bytes with a
32-bit accumulator (initialised to 0 in this code). -/
def fnvHash32v (l : List Char) : Nat :=
  l.foldl (fun r c => ((r ^^^ c.toNat) * 16777619) % 2 ^ 32) 0

/-- std::map<std::string, uint32_t> find (exact-match fallback map). -/
def mapFind : List (List Char × Nat) → List Char → Option Nat
  | [], _ => none
  | (k', i) :: rest, k => if k' = k then some i else mapFind rest k

/-- std::map operator[] assignment: replace the value of an existing key or
insert a new entry. -/
def mapSet : List (List Char × Nat) → List Char → Nat → List (List Char × Nat)
  | [], k, i => [(k, i)]
  | (k', i') :: rest, k, i =>
    if k' = k then (k, i) :: rest else (k', i') :: mapSet rest k i

/-- FastStringLookup from tinyrulechecker.h: direct-slot table (index+1 or
the overflow sentinel `lookSize`), original-key drop-slot names, dense value
store, and the exact-match fallback map. The two fixed-size vectors are
modelled as functions from slot index. -/
structure FastStringLookup (T : Type) : Type where
  lookupMap : List (List Char × Nat)
  lookup : Nat → Nat
  lookupNames : Nat → List Char
  values : List T

/-- Freshly constructed table (vectors zero/empty-initialised). -/
def FastStringLookup.empty {T : Type} : FastStringLookup T :=
  { lookupMap := [], lookup := fun _ => 0, lookupNames := fun _ => [], values := [] }

/-- FastStringLookup::set. -/
def FastStringLookup.set {T : Type} (st : FastStringLookup T) (key : List Char)
    (value : T) : FastStringLookup T :=
  let index := st.values.length
  let qkey := fnvHash32v key % lookSize
  { lookupMap := mapSet st.lookupMap key index
    lookup := fun s => if s = qkey then (if st.lookup qkey = 0 then index + 1 else lookSize)
      else st.lookup s
    lookupNames := fun s => if s = qkey then key else st.lookupNames s
    values := st.values ++ [value] }

/-- FastStringLookup::get. The C code compares sizes and then `memcmp`s the
key bytes, which for byte lists is exactly list equality; both steps are kept
to mirror the source. -/
def FastStringLookup.get {T : Type} (st : FastStringLookup T) (key : List Char) : Option T :=
  let qkey := fnvHash32v key % lookSize
  let index := st.lookup qkey
  if index = 0 then none
  else if index < lookSize then
    if (st.lookupNames qkey).length ≠ key.length then none
    else if st.lookupNames qkey = key then st.values.get? (index - 1)
    else none
  else
    match mapFind st.lookupMap key with
    | none => none
    | some i => st.values.get? i

/-- FastStringLookup::clear : empties the map, the values and the slot table;
`_lookupNames` is deliberately left as is (gated by the zeroed slots). -/
def FastStringLookup.clear {T : Type} (st : FastStringLookup T) : FastStringLookup T :=
  { lookupMap := [], lookup := fun _ => 0, lookupNames := st.lookupNames, values := [] }

/-- MethodOperator from tinyrulechecker.h: the C callback returns `bool` and
fills `EvalResult` with either `result` (on `true`) or `error` (on `false`);
this is exactly `Except error result`. -/
def MethodOperator : Type := VarValue → VarValue → Except (List Char) Bool

instance : DecidableEq (Except (List Char) Bool) := fun a b =>
  match a, b with
  | .ok x, .ok y =>
    if h : x = y then .isTrue (congrArg Except.ok h)
    else .isFalse (fun he => h (Except.ok.inj he))
  | .error x, .error y =>
    if h : x = y then .isTrue (congrArg Except.error h)
    else .isFalse (fun he => h (Except.error.inj he))
  | .ok _, .error _ => .isFalse (fun he => Except.noConfusion he)
  | .error _, .ok _ => .isFalse (fun he => Except.noConfusion he)

/-- Error text of the `ENSURE_SAME_TYPE` macro in tinyrulechecker.cc. -/
def mismatchErr (t₁ t₂ : VarType) : List Char :=
  chars "type mismatch: type " ++ [tagChar t₁] ++ chars " vs " ++ [tagChar t₂]

/-- Error text `unsupported operation '<m>' with type '<t>'`. -/
def unsupportedErr (m : String) (t : VarType) : List Char :=
  chars "unsupported operation '" ++ chars m ++ chars "' with type '" ++ [tagChar t] ++ chars "'"

/-- Lexicographic `operator<` of std::string (byte-wise comparison). -/
def strLtB : List Char → List Char → Bool
  | [], [] => false
  | [], _ :: _ => true
  | _ :: _, [] => false
  | a :: as, b :: bs => if a < b then true else if b < a then false else strLtB as bs

/-- Needle-starts-here test backing `strFind`. -/
def strStarts : List Char → List Char → Bool
  | [], _ => true
  | _ :: _, [] => false
  | a :: as, b :: bs => a = b && strStarts as bs

/-- std::string::find(needle) != npos : the needle occurs as a contiguous
substring (an empty needle is found at position 0). -/
def strFind (hay needle : List Char) : Bool :=
  strStarts needle hay ||
    (match hay with
     | [] => false
     | _ :: t => strFind t needle)

/-- Built-in `eq` from initMethods. -/
def eqOp : MethodOperator := fun v1 v2 =>
  if v1.type ≠ v2.type then .error (mismatchErr v1.type v2.type)
  else match v1.type with
  | .vInt => .ok (decide (v1.intval = v2.intval))
  | .vFloat => .ok (cfEq v1.floatval v2.floatval)
  | .vString => .ok (decide (v1.strval = v2.strval))
  | .vArray => .error (unsupportedErr "eq" v1.type)

/-- Built-in `neq` from initMethods. -/
def neqOp : MethodOperator := fun v1 v2 =>
  if v1.type ≠ v2.type then .error (mismatchErr v1.type v2.type)
  else match v1.type with
  | .vInt => .ok (decide (v1.intval ≠ v2.intval))
  | .vFloat => .ok (!(cfEq v1.floatval v2.floatval))
  | .vString => .ok (decide (v1.strval ≠ v2.strval))
  | .vArray => .error (unsupportedErr "neq" v1.type)

/-- Built-in `gt` from initMethods (`v1 > v2`). -/
def gtOp : MethodOperator := fun v1 v2 =>
  if v1.type ≠ v2.type then .error (mismatchErr v1.type v2.type)
  else match v1.type with
  | .vInt => .ok (decide (v2.intval < v1.intval))
  | .vFloat => .ok (cfLt v2.floatval v1.floatval)
  | .vString => .ok (strLtB v2.strval v1.strval)
  | .vArray => .error (unsupportedErr "gt" v1.type)

/-- Built-in `gte` from initMethods (`v1 >= v2`, i.e. `!(v1 < v2)`). -/
def gteOp : MethodOperator := fun v1 v2 =>
  if v1.type ≠ v2.type then .error (mismatchErr v1.type v2.type)
  else match v1.type with
  | .vInt => .ok (decide (v2.intval ≤ v1.intval))
  | .vFloat => .ok (cfLe v2.floatval v1.floatval)
  | .vString => .ok (!strLtB v1.strval v2.strval)
  | .vArray => .error (unsupportedErr "gte" v1.type)

/-- Built-in `lt` from initMethods. -/
def ltOp : MethodOperator := fun v1 v2 =>
  if v1.type ≠ v2.type then .error (mismatchErr v1.type v2.type)
  else match v1.type with
  | .vInt => .ok (decide (v1.intval < v2.intval))
  | .vFloat => .ok (cfLt v1.floatval v2.floatval)
  | .vString => .ok (strLtB v1.strval v2.strval)
  | .vArray => .error (unsupportedErr "lt" v1.type)

/-- Built-in `lte` from initMethods. -/
def lteOp : MethodOperator := fun v1 v2 =>
  if v1.type ≠ v2.type then .error (mismatchErr v1.type v2.type)
  else match v1.type with
  | .vInt => .ok (decide (v1.intval ≤ v2.intval))
  | .vFloat => .ok (cfLe v1.floatval v2.floatval)
  | .vString => .ok (!strLtB v2.strval v1.strval)
  | .vArray => .error (unsupportedErr "lte" v1.type)

/-- Built-in `contains` from initMethods: only the left operand's type is
checked. -/
def containsOp : MethodOperator := fun v1 v2 =>
  if v1.type = .vString then .ok (strFind v1.strval v2.strval)
  else .error (unsupportedErr "contains" v1.type)

/-- Element comparison of the array branch of `in`: same variant tag and
equal payload for int/float/string; other tags never match. -/
def inElemMatch (v1 v : VarValue) : Bool :=
  if v1.type = v.type then
    match v1.type with
    | .vInt => decide (v1.intval = v.intval)
    | .vFloat => cfEq v1.floatval v.floatval
    | .vString => decide (v1.strval = v.strval)
    | .vArray => false
  else false

/-- Built-in `in` from initMethods: only the RIGHT operand's type is
inspected; the string branch substring-tests the left operand's `strval`
field without consulting the left type tag. -/
def inOp : MethodOperator := fun v1 v2 =>
  if v2.type = .vString then .ok (strFind v2.strval v1.strval)
  else if v2.type = .vArray then .ok (v2.array.any (fun v => inElemMatch v1 v))
  else .error (unsupportedErr "in" v2.type)

/-- Method registry seeded by initMethods, in registration order. -/
def defaultMethodTable : FastStringLookup MethodOperator :=
  ((((((((FastStringLookup.empty).set (chars "eq") eqOp).set (chars "neq") neqOp).set
    (chars "gt") gtOp).set (chars "gte") gteOp).set (chars "lt") ltOp).set
    (chars "lte") lteOp).set (chars "contains") containsOp).set (chars "in") inOp

/-- The engine instance state: `_variables` and `_methods`. -/
structure Checker : Type where
  vars : FastStringLookup VarValue
  methods : FastStringLookup MethodOperator

/-- TinyRuleChecker constructor with defaultMethods = true. -/
def newChecker : Checker :=
  { vars := FastStringLookup.empty, methods := defaultMethodTable }

/-- setVarInt: only `type` and `intval` are written; the `std::string` member
is value-initialized to the empty string. -/
def Checker.setVarInt (c : Checker) (name : List Char) (value : Int) : Checker :=
  { c with vars := c.vars.set name (.mk .vInt value (.finite 0) [] []) }

/-- setVarFloat. -/
def Checker.setVarFloat (c : Checker) (name : List Char) (value : CFloat) : Checker :=
  { c with vars := c.vars.set name (.mk .vFloat 0 value [] []) }

/-- setVarString. -/
def Checker.setVarString (c : Checker) (name : List Char) (value : List Char) : Checker :=
  { c with vars := c.vars.set name (.mk .vString 0 (.finite 0) value []) }

/-- setMethod. -/
def Checker.setMethod (c : Checker) (name : List Char) (m : MethodOperator) : Checker :=
  { c with methods := c.methods.set name m }

/-- ParseState from tinyrulechecker.h. -/
structure ParseState : Type where
  next : Option (List Char)
  token : Token
  result : Bool
  error : List Char
  deriving DecidableEq, Repr

/-- The aggregate-initialised `ParseState ps { expr }` of `eval`. -/
def initPS (s : List Char) : ParseState :=
  { next := some s, token := initToken, result := false, error := [] }

/-- The statement `ps.next = _nextToken(ps.next, ps.token);` that advances the
cursor and stores the token. -/
def advToken (ps : ParseState) : ParseState :=
  { ps with token := (nextTokenO ps.next).1, next := (nextTokenO ps.next).2 }

/-- Decimal rendering of `std::to_string(int)`; the auxiliary fuel is the
number itself, which always suffices. -/
def natToCharsAux : Nat → Nat → List Char
  | 0, _ => []
  | fuel + 1, n =>
    if n < 10 then [Char.ofNat (48 + n)]
    else natToCharsAux fuel (n / 10) ++ [Char.ofNat (48 + n % 10)]

/-- std::to_string for the `int` rendered by `_stringifyToken`. -/
def intToChars (i : Int) : List Char :=
  if i < 0 then '-' :: natToCharsAux (i.natAbs + 1) i.natAbs
  else natToCharsAux (i.natAbs + 1) i.natAbs

/-- std::to_string for a float: fixed six decimal places (`"nan"` for NaN).
The exactly-rounded binary behaviour of the C library is approximated by
rounding the rational half away from zero; no verified claim evaluates this
rendering. -/
def floatToChars : CFloat → List Char
  | .nan => chars "nan"
  | .finite q =>
    let a : ℚ := |q| * 1000000 + 1 / 2
    let scaled : Nat := a.floor.toNat
    let ip := scaled / 1000000
    let fp := scaled % 1000000
    let fracDigits := natToCharsAux (fp + 7) (1000000 + fp)
    (if q < 0 then ['-'] else []) ++ natToCharsAux (ip + 1) ip ++ '.' :: fracDigits.drop 1

/-- TinyRuleChecker::_stringifyToken. -/
def stringifyToken (t : Token) : List Char :=
  match t.type with
  | .tkInt => intToChars t.intval
  | .tkFloat => floatToChars t.floatval
  | .tkRawString => chars "string '" ++ t.value ++ chars "'"
  | .tkRawStringNoEsc => chars "string '" ++ t.value ++ chars "'"
  | .tkUnterminated => chars "unterminated string (" ++ t.value ++ chars ")"
  | .tkEof => chars "EOF"
  | ty => '\'' :: tokTypeChar ty :: ['\'']

/-- In-place unescape loop of `_parseValue` (TK_RAW_STRING case), written as
the function it computes: at a backslash the escape is decoded and emitted,
but the loop index is NOT advanced past the escaped character, so that
character is processed (and emitted) again by the next iteration; a backslash
as the final character emits nothing. An unrecognised escape leaves the
backslash itself in place (`default: break` keeps `strval[i]` unchanged). -/
def unescChar (d : Char) : Char :=
  if d = 'n' then '\n'
  else if d = 'r' then '\r'
  else if d = 't' then '\t'
  else if d = '0' then Char.ofNat 0
  else if d = '\\' then '\\'
  else if d = '\'' then '\''
  else if d = '"' then '"'
  else '\\'

/-- The unescape loop itself (see `unescChar`). -/
def cUnescape : List Char → List Char
  | [] => []
  | c :: rest =>
    if c = '\\' then
      match rest with
      | [] => []
      | d :: _ => unescChar d :: cUnescape rest
    else c :: cUnescape rest

/-- Body of the array-collecting `while` loop of `_parseValue` (TK_LBRACE
case), parametrised by the element parser; `ps.token` on entry holds the
peeked token, exactly as in the C loop condition. -/
def arrLoop (pv : ParseState → Bool × ParseState × VarValue) :
    Nat → ParseState → List VarValue → Bool × ParseState × List VarValue
  | 0, ps, acc => (false, { ps with error := chars "fuel exhausted" }, acc)
  | n + 1, ps, acc =>
    if ps.token.type = .tkRbrace then (true, ps, acc)
    else
      match pv ps with
      | (false, ps', _) => (false, ps', acc)
      | (true, ps', v) =>
        let ps₂ := advToken ps'
        if ps₂.token.type = .tkRbrace then (true, ps₂, acc ++ [v])
        else if ps₂.token.type = .tkComma then arrLoop pv n ps₂ (acc ++ [v])
        else (false, { ps₂ with error := chars "expecting ','" }, acc ++ [v])

/-- TinyRuleChecker::_parseValue. -/
def parseVal (c : Checker) : Nat → ParseState → Bool × ParseState × VarValue
  | 0 => fun ps => (false, { ps with error := chars "fuel exhausted" }, defaultVV)
  | fuel + 1 => fun ps =>
    let ps₁ := advToken ps
    match ps₁.token.type with
    | .tkInt => (true, ps₁, .mk .vInt ps₁.token.intval (.finite 0) [] [])
    | .tkFloat => (true, ps₁, .mk .vFloat 0 ps₁.token.floatval [] [])
    | .tkRawStringNoEsc => (true, ps₁, .mk .vString 0 (.finite 0) ps₁.token.value [])
    | .tkRawString => (true, ps₁, .mk .vString 0 (.finite 0) (cUnescape ps₁.token.value) [])
    | .tkUnterminated => (false, { ps₁ with error := chars "unterminated string" }, defaultVV)
    | .tkId =>
      match c.vars.get ps₁.token.value with
      | none =>
        (false,
         { ps₁ with error := chars "variable '" ++ ps₁.token.value ++ chars "' not found" },
         defaultVV)
      | some pv => (true, ps₁, pv)
    | .tkLbrace =>
      let ps₂ := { ps₁ with token := (nextTokenO ps₁.next).1 }
      match arrLoop (parseVal c fuel) fuel ps₂ [] with
      | (false, ps₃, _) => (false, ps₃, defaultVV)
      | (true, ps₃, elems) =>
        if ps₃.token.type = .tkRbrace then (true, ps₃, .mk .vArray 0 (.finite 0) [] elems)
        else (false, { ps₃ with error := chars "expecting ']'" }, defaultVV)
    | _ =>
      (false, { ps₁ with error := chars "expecting value, got " ++ stringifyToken ps₁.token },
       defaultVV)

/-- TinyRuleChecker::_evalStatement (the type-compatibility check is left to
the method implementation, as the commented-out block in the source says). -/
def evalStatement (c : Checker) (ps : ParseState) (v1 : VarValue)
    (method : List Char) (v2 : VarValue) : Bool × ParseState :=
  match c.methods.get method with
  | none => (false, { ps with error := chars "unknown method '" ++ method ++ chars "'" })
  | some m =>
    match m v1 v2 with
    | .error e => (false, { ps with error := e })
    | .ok b => (true, { ps with result := b })

/-- TinyRuleChecker::_parseStatement. -/
def parseStmt (c : Checker) : Nat → ParseState → Bool × ParseState
  | 0 => fun ps => (false, { ps with error := chars "fuel exhausted" })
  | fuel + 1 => fun ps =>
    let ps₁ := advToken ps
    if ps₁.next = none then (false, { ps₁ with error := chars "expecting statement" })
    else if ps₁.token.type = .tkNot then
      match parseStmt c fuel ps₁ with
      | (false, ps₂) => (false, ps₂)
      | (true, ps₂) => (true, { ps₂ with result := !ps₂.result })
    else if ps₁.token.type ≠ .tkId then (false, { ps₁ with error := chars "expecting identifier" })
    else
      let id := ps₁.token.value
      let ps₂ := advToken ps₁
      if ps₂.token.type ≠ .tkDot then (false, { ps₂ with error := chars "expecting '.'" })
      else
        let ps₃ := advToken ps₂
        if ps₃.token.type ≠ .tkId then (false, { ps₃ with error := chars "expecting identifier" })
        else
          let method := ps₃.token.value
          let ps₄ := advToken ps₃
          if ps₄.token.type ≠ .tkLpar then (false, { ps₄ with error := chars "expecting '('" })
          else
            match parseVal c fuel ps₄ with
            | (false, ps₅, _) => (false, ps₅)
            | (true, ps₅, value) =>
              let ps₆ := advToken ps₅
              if ps₆.token.type ≠ .tkRpar then (false, { ps₆ with error := chars "expecting ')'" })
              else
                match c.vars.get id with
                | none =>
                  (false,
                   { ps₆ with error := chars "variable '" ++ id ++ chars "' not found" })
                | some pVar => evalStatement c ps₆ pVar method value

/-- TinyRuleChecker::_parseExpr. The boolean-operator cases first save the
left result, then recursively parse and evaluate the right-hand expression
UNCONDITIONALLY, and finally fold the saved value in (`&=` / `|=`); because
the recursion happens before the fold, a mixed chain groups to the right. -/
def parseExpr (c : Checker) : Nat → ParseState → Bool × ParseState
  | 0 => fun ps => (false, { ps with error := chars "fuel exhausted" })
  | fuel + 1 => fun ps =>
    let pk := nextTokenO ps.next
    if pk.2 = none then (false, { ps with token := pk.1, error := chars "expecting expression" })
    else
      let ps₀ : ParseState := { ps with token := pk.1 }
      let afterLeft : Bool × ParseState :=
        if pk.1.type = .tkLpar then
          let ps₁ := advToken ps₀
          match parseExpr c fuel ps₁ with
          | (false, ps₂) => (false, ps₂)
          | (true, ps₂) =>
            let ps₃ := advToken ps₂
            if ps₃.token.type ≠ .tkRpar then (false, { ps₃ with error := chars "expecting ')'" })
            else (true, ps₃)
        else parseStmt c (fuel + 1) ps₀
      match afterLeft with
      | (false, psL) => (false, psL)
      | (true, psL) =>
        let pk₁ := nextTokenO psL.next
        let psP : ParseState := { psL with token := pk₁.1 }
        if pk₁.1.type = .tkAnd then
          let psA := advToken psP
          let saved := psA.result
          match parseExpr c fuel psA with
          | (false, ps') => (false, ps')
          | (true, ps') => (true, { ps' with result := ps'.result && saved })
        else if pk₁.1.type = .tkOr then
          let psA := advToken psP
          let saved := psA.result
          match parseExpr c fuel psA with
          | (false, ps') => (false, ps')
          | (true, ps') => (true, { ps' with result := ps'.result || saved })
        else (true, psP)

/-- TinyRuleChecker::eval. After the parse, a trailing token (with an empty
error) is reported as `unexpected token '<tok>'`; on that path the C code
returns `er` with `er.result` never assigned — an indeterminate boolean —
modelled here by the explicit `junk` parameter (every other path assigns
`result` deterministically). -/
def evalTRCu (c : Checker) (s : List Char) (junk : Bool) : EvalResult :=
  let r := parseExpr c (s.length + 2) (initPS s)
  let ps := r.2
  if ps.error = [] then
    let pk := nextTokenO ps.next
    if pk.2 ≠ none then
      { result := junk, error := chars "unexpected token '" ++ pk.1.value ++ chars "'" }
    else { result := ps.result, error := ps.error }
  else { result := ps.result, error := ps.error }

/-- `eval` with the indeterminate trailing-token boolean fixed at `false`:
the determinization used by the claims whose content does not depend on the
`result` field of that path. -/
def evalTRC (c : Checker) (s : List Char) : EvalResult :=
  evalTRCu c s false

/-- Discriminator for the one path on which `eval` returns an uninitialized
`result`: the parse left no error but a token remains. -/
def unexpectedTokPath (c : Checker) (s : List Char) : Bool :=
  decide ((parseExpr c (s.length + 2) (initPS s)).2.error = []) &&
    peekOk (parseExpr c (s.length + 2) (initPS s)).2.next

/-- State-transformer semantics of calling the `eval` member function on an
engine instance. The entire evaluation call graph (`_parseExpr`,
`_parseStatement`, `_parseValue`, `_evalStatement`, `_nextToken`,
`_peekToken`, and the `const` `FastStringLookup::get` lookups) only reads
`_variables` and `_methods` — the mutating members (`setVar*`, `setMethod`,
`clear*`, `initMethods`) are never reached from `eval` — so the instance
state after the call is the instance state before it. -/
def evalFull (c : Checker) (s : List Char) : EvalResult × Checker :=
  (evalTRC c s, c)
/-- Engine state folded from a list of raw `FastStringLookup::set` calls. -/
def lkOf {T : Type} (ops : List (List Char × T)) : FastStringLookup T :=
  ops.foldl (fun st p => st.set p.1 p.2) FastStringLookup.empty

/-- Invariant tying the fast-table state to a predicate satisfied by every
key that was ever passed to `set`: a live direct slot stores an inserted
key's bytes, and every fallback-map entry is keyed by an inserted key. -/
def lkInv {T : Type} (P : List Char → Prop) (st : FastStringLookup T) : Prop :=
  (∀ slot, st.lookup slot ≠ 0 → st.lookup slot < lookSize → P (st.lookupNames slot)) ∧
  (∀ k i, mapFind st.lookupMap k = some i → P k)

/-- Value of a decimal digit string, as the `int` accumulation loop of
`_nextToken` computes it from 0. -/
def decVal (l : List Char) : Int :=
  l.foldl (fun a d => a * 10 + ((d.toNat : Int) - 48)) 0

/-- Value of a decimal digit string, as the fraction accumulation loop of
`_nextToken` computes it from 0 (in the float domain). -/
def decValQ (l : List Char) : ℚ :=
  l.foldl (fun a d => a * 10 + ((d.toNat : ℚ) - 48)) 0

/-- State of the parser after `_parseExpr`'s initial `_peekToken` stored the
first token of the input. -/
def psAfterPeek (s : List Char) : ParseState :=
  { initPS s with token := (nextTokenO (some s)).1 }

/-- State handed to the recursive `_parseExpr` call for the right-hand side
of a boolean operator: the state after the left statement, with the operator
token consumed. -/
def afterOp (c : Checker) (s : List Char) : ParseState :=
  advToken (parseStmt c (s.length + 2) (psAfterPeek s)).2

/-- Instance with `a`, `b`, `c` bound to 1/0 int encodings of three given
booleans (so `a.eq(1)` etc. evaluate to exactly those booleans). -/
def cABC (va vb vc : Bool) : Checker :=
  ((newChecker.setVarInt (chars "a") (if va then 1 else 0)).setVarInt
    (chars "b") (if vb then 1 else 0)).setVarInt (chars "c") (if vc then 1 else 0)

/-- Instance binding `v` to the eight characters the unescape loop actually
produces for the literal `"\n\t\\\""`. -/
def cBug : Checker := newChecker.setVarString (chars "v") (chars "\nn\tt\\\\\"\"")

/-- Instance binding `v` to the four characters the specification says that
literal denotes. -/
def cGood : Checker := newChecker.setVarString (chars "v") (chars "\n\t\\\"")

/-- Instance with float `b = -1.5` (the exact value `setVarFloat` stores). -/
def cB8 : Checker := newChecker.setVarFloat (chars "b") (.finite (-(3 / 2)))

/-- Instance with int `x = 5`. -/
def cX9 : Checker := newChecker.setVarInt (chars "x") 5

/-- Instance with int `a = 1`, used to drive a false left operand. -/
def cW3 : Checker := newChecker.setVarInt (chars "a") 1

/-- Expression with a false left conjunct and a malformed right conjunct. -/
def sW3 : List Char := chars "a.eq(2) && j.q("

/-- Concrete operands for the ordering-trichotomy witness. -/
def vW7 : VarValue := .mk .vInt 3 (.finite 0) [] []

/-- Concrete operands for the ordering-trichotomy witness. -/
def xW7 : VarValue := .mk .vInt 5 (.finite 0) [] []

/-- The value `setVarFloat` stores for a NaN argument. -/
def vNaN : VarValue := .mk .vFloat 0 CFloat.nan [] []

/-- The value `_parseValue` builds for the float literal `1.0`. -/
def xF1 : VarValue := .mk .vFloat 0 (.finite 1) [] []

/-- Instance with float `b` registered as NaN. -/
def cNaN : Checker := newChecker.setVarFloat (chars "b") CFloat.nan

/-- Concrete insertion sequence for the lookup-table witness. -/
def opsW6 : List (List Char × Nat) := [(chars "alpha", 1), (chars "beta", 2)]

theorem strFind_nil (hay : List Char) : strFind hay [] = true := by
  cases hay <;> simp [strFind, strStarts]

/-- C1 counterexample: with `a = true`, `b = false`, `c = false` the
unparenthesized chain `a.eq(1) || b.eq(1) && c.eq(1)` evaluates to `true`,
while the claimed grouping `(a.eq(1) || b.eq(1)) && c.eq(1)` evaluates to
`false`, so the two are NOT the same boolean. -/
theorem trc_C1_counterexample :
    evalTRC (cABC true false false) (chars "a.eq(1) || b.eq(1) && c.eq(1)")
      = { result := true, error := [] } ∧
    evalTRC (cABC true false false) (chars "(a.eq(1) || b.eq(1)) && c.eq(1)")
      = { result := false, error := [] } := by
  constructor
  · with_unfolding_all decide
  · with_unfolding_all decide

/-- C1 amended: an unparenthesized mixed chain groups to the RIGHT — each
operator combines its left operand with the value of the entire remaining
chain — so for all booleans `a || b && c` evaluates as `a || (b && c)`. -/
theorem trc_C1_amended (va vb vc : Bool) :
    evalTRC (cABC va vb vc) (chars "a.eq(1) || b.eq(1) && c.eq(1)")
      = { result := va || (vb && vc), error := [] } := by
  cases va <;> cases vb <;> cases vc <;> with_unfolding_all decide

/-- C2 (code bug): the unescape loop decodes each escape but fails to skip
the escaped character, so the literal `"\n\t\\\""` (content backslash-n,
backslash-t, backslash-backslash, backslash-quote) parses to the EIGHT
characters newline, `n`, tab, `t`, backslash, backslash, quote, quote
instead of the four the claim (and the spec round-trip property) states:
an engine variable holding those eight characters compares equal to the
literal, and one holding the claimed four characters does not. -/
theorem trc_C2_bug_eval :
    cUnescape (chars "\\n\\t\\\\\\\"") = chars "\nn\tt\\\\\"\"" ∧
    evalTRC cBug (chars "v.eq(\"\\n\\t\\\\\\\"\")") = { result := true, error := [] } ∧
    evalTRC cGood (chars "v.eq(\"\\n\\t\\\\\\\"\")") = { result := false, error := [] } := by
  refine ⟨by decide, ?_, ?_⟩
  · with_unfolding_all decide
  · with_unfolding_all decide

/-- C4 (code bug): for the expression `j.k(` — whose statement argument
position holds no valid value token — `eval` returns
`expecting value, got EOF`, not the exact taxonomy string `expecting value`
that the specification (and the repository's own tests, test.cc lines 96-98)
require. -/
theorem trc_C4_bug_eval :
    evalTRC newChecker (chars "j.k(")
      = { result := false, error := chars "expecting value, got EOF" } ∧
    (evalTRC newChecker (chars "j.k(")).error ≠ chars "expecting value" := by
  constructor
  · with_unfolding_all decide
  · with_unfolding_all decide

/-- C5: evaluation leaves the variable bindings and the method registry of
the instance exactly as they were (the evaluation call graph performs no
write to either store), and a subsequent `evaluate` on the same instance —
after any call, in particular a failed one — behaves exactly as on the
untouched instance. -/
theorem trc_C5 (c : Checker) (e e' : List Char) :
    (evalFull c e).2 = c ∧ evalTRC (evalFull c e).2 e' = evalTRC c e' :=
  ⟨rfl, rfl⟩

/-- C9: the `in` method with a String right operand substring-tests the left
operand's `strval` field without inspecting the left type tag; the engine
stores an empty `strval` for every Int and Float variable, so `x.in(s)` is
`true` for every Int or Float `x` and every String `s` (shown both at the
method level for the values `setVarInt`/`setVarFloat` construct, and
end-to-end for `x = 5`). -/
theorem trc_C9 :
    (∀ (n : Int) (v2 : VarValue), v2.type = VarType.vString →
      inOp (.mk .vInt n (.finite 0) [] []) v2 = .ok true) ∧
    (∀ (q : CFloat) (v2 : VarValue), v2.type = VarType.vString →
      inOp (.mk .vFloat 0 q [] []) v2 = .ok true) ∧
    evalTRC cX9 (chars "x.in(\"hello\")") = { result := true, error := [] } := by
  refine ⟨?_, ?_, by with_unfolding_all decide⟩
  · intro n v2 h
    simp [inOp, h, VarValue.strval, strFind_nil]
  · intro q v2 h
    simp [inOp, h, VarValue.strval, strFind_nil]

/-- C9 witness: the method-level statement applied at `x = 0` and the string
value `"ab"`. -/
theorem trc_C9_witness :
    inOp (.mk .vInt 0 (.finite 0) [] []) (.mk .vString 0 (.finite 0) (chars "ab") [])
      = .ok true :=
  trc_C9.1 0 (.mk .vString 0 (.finite 0) (chars "ab") []) (by decide)

/-- C10 counterexample: on `a.eq(2) &` the parse leaves no error but a
token remains, so the C++ `eval` returns `er` with `er.result` never
assigned; the two possible values of that indeterminate boolean give the
same error string but DIFFERENT boolean results, so the program does not
guarantee that two calls return the same boolean. -/
theorem trc_C10_counterexample :
    (evalTRCu cW3 (chars "a.eq(2) &") true).error
      = (evalTRCu cW3 (chars "a.eq(2) &") false).error ∧
    (evalTRCu cW3 (chars "a.eq(2) &") true).result
      ≠ (evalTRCu cW3 (chars "a.eq(2) &") false).result := by
  with_unfolding_all decide

/-- C10 (amended): repeat evaluation with the same expression, bindings and
methods always returns the same error string, and also the same boolean
result whenever the evaluation does not end on the trailing-token
(`unexpected token '<tok>'`) path — the one path where the C++ returns an
uninitialized boolean (spec section 6 declares the result unspecified on
errors). -/
theorem trc_C10 (c : Checker) (e : List Char) (j₁ j₂ : Bool) :
    (evalTRCu c e j₁).error = (evalTRCu c e j₂).error ∧
    (unexpectedTokPath c e = false → evalTRCu c e j₁ = evalTRCu c e j₂) := by
  by_cases he : (parseExpr c (e.length + 2) (initPS e)).2.error = []
  · by_cases hp : (nextTokenO (parseExpr c (e.length + 2) (initPS e)).2.next).2 = none
    · exact ⟨by simp [evalTRCu, he, hp], fun _ => by simp [evalTRCu, he, hp]⟩
    · refine ⟨by simp [evalTRCu, he, hp], fun hcond => ?_⟩
      simp [unexpectedTokPath, peekOk, he, hp] at hcond
  · exact ⟨by simp [evalTRCu, he], fun _ => by simp [evalTRCu, he]⟩

/-- C10 witness: the boolean-determinism implication applied to the fully
parsed expression `a.eq(2)`, which does not end on the trailing-token
path. -/
theorem trc_C10_witness :
    evalTRCu cW3 (chars "a.eq(2)") true = evalTRCu cW3 (chars "a.eq(2)") false :=
  (trc_C10 cW3 (chars "a.eq(2)") true false).2 (by with_unfolding_all decide)

theorem mapFind_mapSet (m : List (List Char × Nat)) (k : List Char) (i : Nat) (k' : List Char) :
    mapFind (mapSet m k i) k' = if k = k' then some i else mapFind m k' := by
  induction m with
  | nil => simp [mapSet, mapFind]
  | cons p rest ih =>
    obtain ⟨a, b⟩ := p
    by_cases hak : a = k
    · subst hak
      by_cases hk' : a = k' <;> simp [mapSet, mapFind, hk']
    · by_cases hak' : a = k'
      · subst hak'
        have hkk' : ¬(k = a) := fun he => hak he.symm
        simp [mapSet, hak, mapFind, hkk']
      · simp [mapSet, hak, mapFind, hak', ih]

theorem lkInv_empty {T : Type} : lkInv (fun _ => False) (FastStringLookup.empty (T := T)) := by
  constructor
  · intro slot h0 _
    simp [FastStringLookup.empty] at h0
  · intro k i hf
    simp [mapFind, FastStringLookup.empty] at hf

theorem lkInv_set {T : Type} {P : List Char → Prop} {st : FastStringLookup T}
    (h : lkInv P st) (key : List Char) (val : T) :
    lkInv (fun k => P k ∨ k = key) (st.set key val) := by
  obtain ⟨h1, h2⟩ := h
  constructor
  · intro slot h0 hlt
    simp only [FastStringLookup.set] at h0 hlt ⊢
    by_cases hs : slot = fnvHash32v key % lookSize
    · simp [hs]
    · simp only [hs, if_false] at h0 hlt ⊢
      exact Or.inl (h1 slot h0 hlt)
  · intro k i hf
    simp only [FastStringLookup.set] at hf
    rw [mapFind_mapSet] at hf
    by_cases hk : key = k
    · exact Or.inr hk.symm
    · rw [if_neg hk] at hf
      exact Or.inl (h2 k i hf)

theorem lkGet_none {T : Type} {P : List Char → Prop} {st : FastStringLookup T}
    (h : lkInv P st) (k : List Char) (hk : ¬ P k) : st.get k = none := by
  obtain ⟨h1, h2⟩ := h
  unfold FastStringLookup.get
  by_cases h0 : st.lookup (fnvHash32v k % lookSize) = 0
  · simp [h0]
  · by_cases hlt : st.lookup (fnvHash32v k % lookSize) < lookSize
    · have hname : P (st.lookupNames (fnvHash32v k % lookSize)) :=
        h1 (fnvHash32v k % lookSize) h0 hlt
      have hne : st.lookupNames (fnvHash32v k % lookSize) ≠ k :=
        fun he => hk (he ▸ hname)
      by_cases hlen : (st.lookupNames (fnvHash32v k % lookSize)).length ≠ k.length
      · simp [h0, hlt, hlen]
      · simp [h0, hlt, hlen, hne]
    · simp only [h0, hlt, if_false]
      cases hf : mapFind st.lookupMap k with
      | none => simp [hf]
      | some i => exact absurd (h2 k i hf) hk

theorem lkOf_aux {T : Type} (k : List Char) :
    ∀ (ops : List (List Char × T)) (st : FastStringLookup T) (P : List Char → Prop),
      lkInv P st → ¬ P k → (∀ p ∈ ops, p.1 ≠ k) →
      (ops.foldl (fun st p => st.set p.1 p.2) st).get k = none := by
  intro ops
  induction ops with
  | nil =>
    intro st P h hP _
    simpa using lkGet_none h k hP
  | cons p rest ih =>
    intro st P h hP hops
    simp only [List.foldl_cons]
    refine ih (st.set p.1 p.2) (fun x => P x ∨ x = p.1) (lkInv_set h p.1 p.2) ?_ ?_
    · rintro (hPk | hkp)
      · exact hP hPk
      · exact hops p (by simp) hkp.symm
    · intro q hq
      exact hops q (by simp [hq])

/-- C6: whatever sequence of `set` operations built the fast lookup table,
`get` on a key that was never set returns NULL — in every slot situation:
empty slot, slot holding a different key's index (caught by the stored-key
comparison), slot holding the overflow sentinel (caught by the fallback
map), or a slot whose stored index happens to equal the sentinel value
(which also routes to the fallback map). -/
theorem trc_C6 {T : Type} (ops : List (List Char × T)) (k : List Char)
    (hk : ∀ p ∈ ops, p.1 ≠ k) : (lkOf ops).get k = none := by
  unfold lkOf
  exact lkOf_aux k ops FastStringLookup.empty (fun _ => False) lkInv_empty (fun h => h) hk

/-- C6 witness: a concrete two-insertion table probed with an absent key. -/
theorem trc_C6_witness : (lkOf opsW6).get (chars "gamma") = none :=
  trc_C6 opsW6 (chars "gamma") (by decide)

theorem strLtB_trichot (as : List Char) : ∀ bs : List Char,
    (strLtB as bs = true ∧ ¬(as = bs) ∧ ¬(strLtB bs as = true)) ∨
    (¬(strLtB as bs = true) ∧ as = bs ∧ ¬(strLtB bs as = true)) ∨
    (¬(strLtB as bs = true) ∧ ¬(as = bs) ∧ strLtB bs as = true) := by
  induction as with
  | nil =>
    intro bs
    cases bs with
    | nil => exact Or.inr (Or.inl ⟨by simp [strLtB], rfl, by simp [strLtB]⟩)
    | cons b bs => exact Or.inl ⟨by simp [strLtB], by simp, by simp [strLtB]⟩
  | cons a as ih =>
    intro bs
    cases bs with
    | nil => exact Or.inr (Or.inr ⟨by simp [strLtB], by simp, by simp [strLtB]⟩)
    | cons b bs =>
      rcases lt_trichotomy a b with hab | hab | hab
      · refine Or.inl ⟨by simp [strLtB, hab], ?_, by simp [strLtB, lt_asymm hab, hab]⟩
        intro he
        rw [List.cons.injEq] at he
        exact absurd he.1 (ne_of_lt hab)
      · subst hab
        rcases ih bs with ⟨h1, h2, h3⟩ | ⟨h1, h2, h3⟩ | ⟨h1, h2, h3⟩
        · exact Or.inl ⟨by simp [strLtB, lt_irrefl, h1], by simp [h2],
            by simp [strLtB, lt_irrefl, h3]⟩
        · exact Or.inr (Or.inl ⟨by simp [strLtB, lt_irrefl, h1], by simp [h2],
            by simp [strLtB, lt_irrefl, h3]⟩)
        · exact Or.inr (Or.inr ⟨by simp [strLtB, lt_irrefl, h1], by simp [h2],
            by simp [strLtB, lt_irrefl, h3]⟩)
      · refine Or.inr (Or.inr ⟨by simp [strLtB, lt_asymm hab, hab], ?_,
          by simp [strLtB, hab]⟩)
        intro he
        rw [List.cons.injEq] at he
        exact absurd he.1 (ne_of_gt hab)

/-- C7 counterexample: with `b` registered as the float NaN (`setVarFloat`
accepts any host float) and the literal `1.0`, NONE of `lt`, `eq`, `gt`
holds — each returns `false` — refuting "exactly one", both at the method
level and end-to-end through `eval`. -/
theorem trc_C7_counterexample :
    ¬((ltOp vNaN xF1 = .ok true ∧ ¬(eqOp vNaN xF1 = .ok true) ∧ ¬(gtOp vNaN xF1 = .ok true)) ∨
      (¬(ltOp vNaN xF1 = .ok true) ∧ eqOp vNaN xF1 = .ok true ∧ ¬(gtOp vNaN xF1 = .ok true)) ∨
      (¬(ltOp vNaN xF1 = .ok true) ∧ ¬(eqOp vNaN xF1 = .ok true) ∧ gtOp vNaN xF1 = .ok true)) ∧
    evalTRC cNaN (chars "b.lt(1.0)") = { result := false, error := [] } ∧
    evalTRC cNaN (chars "b.eq(1.0)") = { result := false, error := [] } ∧
    evalTRC cNaN (chars "b.gt(1.0)") = { result := false, error := [] } := by
  with_unfolding_all decide

/-- C7 (amended): for operands of equal ordered type (Int, Float, or
String), exactly one of `lt`, `eq`, `gt` returns `true`, PROVIDED no Float
operand is NaN — with a NaN operand the IEEE comparisons make all three
false (see the counterexample). -/
theorem trc_C7 (v x : VarValue) (hty : v.type = x.type)
    (hord : v.type = VarType.vInt ∨ v.type = VarType.vFloat ∨ v.type = VarType.vString)
    (hv : v.floatval ≠ CFloat.nan) (hx : x.floatval ≠ CFloat.nan) :
    (ltOp v x = .ok true ∧ ¬(eqOp v x = .ok true) ∧ ¬(gtOp v x = .ok true)) ∨
    (¬(ltOp v x = .ok true) ∧ eqOp v x = .ok true ∧ ¬(gtOp v x = .ok true)) ∨
    (¬(ltOp v x = .ok true) ∧ ¬(eqOp v x = .ok true) ∧ gtOp v x = .ok true) := by
  rcases hord with ht | ht | ht
  · rw [ht] at hty
    simp only [ltOp, eqOp, gtOp, ht, ← hty, ne_eq, eq_self_iff_true, not_true, if_false,
      Except.ok.injEq, decide_eq_true_eq]
    omega
  · rw [ht] at hty
    simp only [ltOp, eqOp, gtOp, ht, ← hty, ne_eq, eq_self_iff_true, not_true, if_false,
      Except.ok.injEq]
    cases hvf : v.floatval with
    | nan => exact absurd hvf hv
    | finite a =>
      cases hxf : x.floatval with
      | nan => exact absurd hxf hx
      | finite b =>
        simp only [cfLt, cfEq, decide_eq_true_eq]
        rcases lt_trichotomy a b with h | h | h
        · exact Or.inl ⟨h, ne_of_lt h, lt_asymm h⟩
        · refine Or.inr (Or.inl ⟨?_, h, ?_⟩) <;> rw [h] <;> exact lt_irrefl _
        · exact Or.inr (Or.inr ⟨lt_asymm h, ne_of_gt h, h⟩)
  · rw [ht] at hty
    simp only [ltOp, eqOp, gtOp, ht, ← hty, ne_eq, eq_self_iff_true, not_true, if_false,
      Except.ok.injEq, decide_eq_true_eq]
    exact strLtB_trichot v.strval x.strval

/-- C7 witness: the trichotomy at the (non-NaN) Int operands 3 and 5. -/
theorem trc_C7_witness :
    (ltOp vW7 xW7 = .ok true ∧ ¬(eqOp vW7 xW7 = .ok true) ∧ ¬(gtOp vW7 xW7 = .ok true)) ∨
    (¬(ltOp vW7 xW7 = .ok true) ∧ eqOp vW7 xW7 = .ok true ∧ ¬(gtOp vW7 xW7 = .ok true)) ∨
    (¬(ltOp vW7 xW7 = .ok true) ∧ ¬(eqOp vW7 xW7 = .ok true) ∧ gtOp vW7 xW7 = .ok true) :=
  trc_C7 vW7 xW7 (by decide) (by decide) (by decide) (by decide)

theorem takeWhile_all {p : Char → Bool} : ∀ l : List Char, (∀ c ∈ l, p c = true) →
    l.takeWhile p = l := by
  intro l
  induction l with
  | nil => intro _; rfl
  | cons a t ih =>
    intro h
    simp [List.takeWhile_cons, h a (by simp), ih (fun c hc => h c (by simp [hc]))]

theorem dropWhile_all {p : Char → Bool} : ∀ l : List Char, (∀ c ∈ l, p c = true) →
    l.dropWhile p = [] := by
  intro l
  induction l with
  | nil => intro _; rfl
  | cons a t ih =>
    intro h
    simp [List.dropWhile_cons, h a (by simp), ih (fun c hc => h c (by simp [hc]))]

theorem takeWhile_append_stop {p : Char → Bool} (l₁ : List Char) (a : Char) (l₂ : List Char)
    (h₁ : ∀ c ∈ l₁, p c = true) (h₂ : p a = false) :
    (l₁ ++ a :: l₂).takeWhile p = l₁ := by
  induction l₁ with
  | nil => simp [List.takeWhile_cons, h₂]
  | cons hd tl ih =>
    simp only [List.cons_append, List.takeWhile_cons, h₁ hd (by simp)]
    simp [ih (fun c hc => h₁ c (by simp [hc]))]

theorem dropWhile_append_stop {p : Char → Bool} (l₁ : List Char) (a : Char) (l₂ : List Char)
    (h₁ : ∀ c ∈ l₁, p c = true) (h₂ : p a = false) :
    (l₁ ++ a :: l₂).dropWhile p = a :: l₂ := by
  induction l₁ with
  | nil => simp [List.dropWhile_cons, h₂]
  | cons hd tl ih =>
    simp only [List.cons_append, List.dropWhile_cons, h₁ hd (by simp)]
    simp [ih (fun c hc => h₁ c (by simp [hc]))]

theorem foldl_decQ (l : List Char) : ∀ a : ℚ,
    l.foldl (fun a d => a * 10 + ((d.toNat : ℚ) - 48)) a = a * 10 ^ l.length + decValQ l := by
  induction l with
  | nil => intro a; simp [decValQ]
  | cons c t ih =>
    intro a
    have h1 := ih (a * 10 + ((c.toNat : ℚ) - 48))
    have h2 := ih (0 * 10 + ((c.toNat : ℚ) - 48))
    simp only [List.foldl_cons, List.length_cons, decValQ] at *
    rw [h1, h2]
    ring

theorem foldl_fracPair (l : List Char) : ∀ f d : ℚ,
    l.foldl (fun (p : ℚ × ℚ) c => (p.1 * 10 + ((c.toNat : ℚ) - 48), p.2 * 10)) (f, d)
      = (f * 10 ^ l.length + decValQ l, d * 10 ^ l.length) := by
  induction l with
  | nil => intro f d; simp [decValQ]
  | cons c t ih =>
    intro f d
    rw [List.foldl_cons, ih]
    have h2 : decValQ (c :: t) = (0 * 10 + ((c.toNat : ℚ) - 48)) * 10 ^ t.length + decValQ t := by
      simp only [decValQ, List.foldl_cons]
      exact foldl_decQ t _
    rw [Prod.mk.injEq]
    constructor
    · have h3 : decValQ (c :: t) = decValQ (c :: t) := rfl
      rw [List.length_cons]
      calc (f * 10 + ((c.toNat : ℚ) - 48)) * 10 ^ t.length + decValQ t
          = f * 10 ^ (t.length + 1) + ((0 * 10 + ((c.toNat : ℚ) - 48)) * 10 ^ t.length + decValQ t) := by ring
        _ = f * 10 ^ (t.length + 1) + decValQ (c :: t) := by rw [← h2]
    · rw [List.length_cons]
      ring

theorem nextToken_negFloat (ws fs : List Char)
    (hws : ∀ ch ∈ ws, isDigitC ch = true) (hfs : ∀ ch ∈ fs, isDigitC ch = true) :
    nextToken ('-' :: (ws ++ '.' :: fs)) =
      ({ type := .tkFloat, value := '-' :: ws ++ '.' :: fs,
         intval := -(decVal ws),
         floatval := .finite (-((decVal ws : ℚ)) + decValQ fs / 10 ^ fs.length) }, some []) := by
  have hdw : ('-' :: (ws ++ '.' :: fs)).dropWhile isSpaceC = '-' :: (ws ++ '.' :: fs) := by
    simp [List.dropWhile_cons, show isSpaceC '-' = false from by decide]
  rw [nextToken, hdw]
  simp only [show classify '-' = TokenType.tkInt from by decide]
  rw [intTok]
  simp only [takeWhile_append_stop ws '.' fs hws (by decide),
    dropWhile_append_stop ws '.' fs hws (by decide),
    List.head?_cons, List.tail_cons,
    takeWhile_all fs hfs, dropWhile_all fs hfs,
    show isDigitC '-' = false from by decide,
    if_true, if_false, eq_self_iff_true,
    foldl_fracPair fs 0 1]
  simp only [decVal, Option.some.injEq, reduceIte, zero_mul, zero_add, one_mul,
    Prod.mk.injEq, Token.mk.injEq, CFloat.finite.injEq, Int.cast_neg]
  norm_num

/-- C8: a float literal `-W.F` is decoded by negating the integer part first
and then ADDING the fraction, i.e. to `(-W) + 0.F`; consequently the literal
`-1.5` denotes `-0.5`, and with `b` holding the float `-1.5` the expression
`b.eq(-1.5)` evaluates (without error) to `false`. -/
theorem trc_C8 :
    (∀ ws fs : List Char, (∀ ch ∈ ws, isDigitC ch = true) → (∀ ch ∈ fs, isDigitC ch = true) →
      (nextToken ('-' :: (ws ++ '.' :: fs))).1.type = TokenType.tkFloat ∧
      (nextToken ('-' :: (ws ++ '.' :: fs))).1.floatval
        = .finite (-((decVal ws : ℚ)) + decValQ fs / 10 ^ fs.length)) ∧
    evalTRC cB8 (chars "b.eq(-1.5)") = { result := false, error := [] } := by
  constructor
  · intro ws fs hws hfs
    rw [nextToken_negFloat ws fs hws hfs]
    exact ⟨rfl, rfl⟩
  · with_unfolding_all decide

/-- C8 witness: the decoding statement applied to the literal `-1.5`
(integer digits `1`, fraction digits `5`). -/
theorem trc_C8_witness :
    (nextToken ('-' :: (['1'] ++ '.' :: ['5']))).1.type = TokenType.tkFloat ∧
    (nextToken ('-' :: (['1'] ++ '.' :: ['5']))).1.floatval
      = .finite (-((decVal ['1'] : ℚ)) + decValQ ['5'] / 10 ^ (['5'] : List Char).length) :=
  trc_C8.1 ['1'] ['5'] (by decide) (by decide)

theorem parseStmt_true_token (c : Checker) (f : Nat) (ps : ParseState)
    (h : (parseStmt c (f + 1) ps).1 = true) :
    (nextTokenO ps.next).2 ≠ none ∧
    ((nextTokenO ps.next).1.type = TokenType.tkNot ∨ (nextTokenO ps.next).1.type = TokenType.tkId) := by
  rcases hpk : nextTokenO ps.next with ⟨t, r⟩
  simp only [parseStmt, advToken, hpk] at h
  constructor
  · intro hnone
    replace hnone : r = none := hnone
    rw [hnone] at h
    simp at h
  · by_cases hr : r = none
    · rw [hr] at h; simp at h
    · rw [if_neg hr] at h
      by_cases h1 : t.type = TokenType.tkNot
      · exact Or.inl h1
      · rw [if_neg h1] at h
        by_cases h2 : t.type = TokenType.tkId
        · exact Or.inr h2
        · rw [if_pos (by simpa using h2)] at h
          simp at h

theorem evalTRC_err (c : Checker) (s : List Char) (b : Bool) (ps' : ParseState)
    (hp : parseExpr c (s.length + 2) (initPS s) = (b, ps')) (he : ps'.error ≠ []) :
    evalTRC c s = { result := ps'.result, error := ps'.error } := by
  simp [evalTRC, evalTRCu, hp, he]

/-- C3: when the input parses as a statement followed by `&&` or `||`, the
right-hand side is parsed and evaluated unconditionally — the saved left
result is only folded in AFTER the recursive call succeeds — so whenever the
right-hand side fails, `eval` reports the right-hand side's error, whatever
the left operand's boolean value was (no hypothesis constrains it). -/
theorem trc_C3 (c : Checker) (s : List Char)
    (hL : (parseStmt c (s.length + 2) (psAfterPeek s)).1 = true)
    (hOp : (nextTokenO (parseStmt c (s.length + 2) (psAfterPeek s)).2.next).1.type = TokenType.tkAnd
         ∨ (nextTokenO (parseStmt c (s.length + 2) (psAfterPeek s)).2.next).1.type = TokenType.tkOr)
    (hR : (parseExpr c (s.length + 1) (afterOp c s)).1 = false)
    (hE : (parseExpr c (s.length + 1) (afterOp c s)).2.error ≠ []) :
    evalTRC c s = { result := (parseExpr c (s.length + 1) (afterOp c s)).2.result,
                    error := (parseExpr c (s.length + 1) (afterOp c s)).2.error } := by
  have h2 : s.length + 2 = s.length + 1 + 1 := rfl
  rcases hpk : nextTokenO (some s) with ⟨t₀, r₀⟩
  have hft := parseStmt_true_token c (s.length + 1) (psAfterPeek s) hL
  have hsome : r₀ ≠ none := by simpa [psAfterPeek, initPS, hpk] using hft.1
  obtain ⟨s₀, rfl⟩ := Option.ne_none_iff_exists'.mp hsome
  have ht₀ : t₀.type = TokenType.tkNot ∨ t₀.type = TokenType.tkId := by
    simpa [psAfterPeek, initPS, hpk] using hft.2
  have hnotl : ¬(t₀.type = TokenType.tkLpar) := by
    rcases ht₀ with h | h <;> rw [h] <;> decide
  rcases hps : parseStmt c (s.length + 2) (psAfterPeek s) with ⟨b, psL⟩
  rw [hps] at hL hOp
  replace hL : b = true := hL
  subst hL
  rcases hpk₁ : nextTokenO psL.next with ⟨t₁, r₁⟩
  replace hOp : t₁.type = TokenType.tkAnd ∨ t₁.type = TokenType.tkOr := by
    simpa [hpk₁] using hOp
  have hao : afterOp c s = { psL with token := t₁, next := r₁ } := by
    simp [afterOp, hps, advToken, hpk₁]
  rw [hao] at hR hE
  rcases hre : parseExpr c (s.length + 1) { psL with token := t₁, next := r₁ } with ⟨rb, ps₃⟩
  rw [hre] at hR hE
  replace hR : rb = false := hR
  subst hR
  rw [hao, hre]
  simp only [psAfterPeek, initPS, hpk, h2] at hps
  have hmain : parseExpr c (s.length + 2) (initPS s) = (false, ps₃) := by
    rw [h2, parseExpr]
    simp only [initPS, hpk, hnotl, if_false]
    simp only [hps]
    simp only [hpk₁, advToken]
    rcases hOp with hop | hop
    · simp only [hop, if_true, hre]
      rfl
    · have hnand : ¬(t₁.type = TokenType.tkAnd) := by rw [hop]; decide
      simp only [hop, hnand, if_false, if_true, hre]
      rfl
  exact evalTRC_err c s false ps₃ hmain (by simpa using hE)

/-- C3 witness: with `a = 1`, the left conjunct of
`a.eq(2) && j.q(` is false — which alone would decide the conjunction — yet
`eval` returns the right-hand side's error. -/
theorem trc_C3_witness :
    evalTRC cW3 sW3 = { result := false, error := chars "expecting value, got EOF" } :=
  trc_C3 cW3 sW3 (by with_unfolding_all decide) (by with_unfolding_all decide)
    (by with_unfolding_all decide) (by with_unfolding_all decide)
